import Mathlib

/-! Verification of the roscpp C++ message source generator
(`core/roscpp/scripts/genmsg_cpp.py`) against its specification.

The generator turns a parsed ROS message schema into one C++ header:
member declarations, a default-initializing constructor, named constants,
type metadata (md5, datatype, full textual definition, capability traits)
and serialization routine bodies.  The emission functions are embedded
below with one Lean list element per `s.write` call of the source, so the
emitted compilation unit is `String.join` of the chunk lists.  External
collaborators of the generator (the schema parser `roslib.msgs.parse_type`,
`roslib.msgs.is_builtin`, `roslib.msgs.is_header_type`,
`roslib.names.package_resource_name` and the schema lookup
`roslib.msgs.load_by_type`) are not part of this repository's source tree
and are modelled from the specification where indicated. -/

/-- Modelled from the spec: the array modifier of a SchemaType as produced by
the external schema parser (`roslib.msgs.parse_type` returns
`(base_type, is_array, array_len)`; `Scalar` is `is_array = False`,
`VariableArray` is `is_array = True, array_len = None`, `FixedArray n` is
`is_array = True, array_len = n`). -/
inductive ArraySpec where
  | scalar
  | variableArray
  | fixedArray (n : Nat)
deriving DecidableEq, Repr

/-- Modelled from the spec: a parsed field type, i.e. the output of the
schema parser's `parse_type`: the base type name together with the array
modifier. -/
structure MsgType where
  base : String
  arr : ArraySpec
deriving DecidableEq, Repr

/-- A schema field: `(type, name)` as enumerated by `spec.fields()`. -/
structure MsgField where
  type : MsgType
  name : String
deriving DecidableEq, Repr

/-- A schema constant: declared type name, identifier and literal value text,
as enumerated by `spec.constants`. -/
structure Constant where
  type : String
  name : String
  val : String
deriving DecidableEq, Repr

/-- Modelled from the spec: a MessageSchema — ordered field sequence,
constant sequence and the "has a leading header field" flag
(`spec.has_header()`). -/
structure MsgSpec where
  fields : List MsgField
  constants : List Constant
  hasHeader : Bool
deriving DecidableEq, Repr

/-- Modelled from the spec: the fixed enumerated set of builtin kinds
recognised by `roslib.msgs.is_builtin` — integers of widths 8/16/32/64,
two float widths, bool, the byte/char aliases, string, time and duration. -/
def BUILTIN_TYPES : List String :=
  [("byte"), ("char"), ("bool"),
   ("uint8"), ("int8"), ("uint16"), ("int16"),
   ("uint32"), ("int32"), ("uint64"), ("int64"),
   ("float32"), ("float64"), ("string"), ("time"), ("duration")]

/-- Modelled from the spec: `roslib.msgs.is_builtin`. -/
def is_builtin (t : String) : Bool :=
  decide (t ∈ BUILTIN_TYPES)

/-- Modelled from the spec: `roslib.msgs.is_header_type` — detection of the
conventional header type in any of its spellings. -/
def is_header_type (t : String) : Bool :=
  decide (t = "Header" ∨ t = "std_msgs/Header" ∨ t = "roslib/Header")

/-- Split a character list at a separator character, with the semantics of
Python `str.split(sep)`: `"a/b"` gives `["a","b"]`, `""` gives `[""]`,
`"a/"` gives `["a",""]`. -/
def splitCharList (c : Char) : List Char → List (List Char)
  | [] => [[]]
  | x :: xs =>
    if x = c then [] :: splitCharList c xs
    else
      match splitCharList c xs with
      | [] => [[x]]
      | y :: ys => (x :: y) :: ys

/-- Python `base_type.split('/')` as used by `msg_type_to_cpp`. -/
def splitSlash (s : String) : List String :=
  (splitCharList ('/') s.data).map (fun l => String.mk l)

/-- Modelled from the spec: `roslib.names.package_resource_name` — the
schema-lookup key derivation.  A composite type name is keyed by
(package, name); a bare name has the empty package; a name with more than
one separator is an error. -/
def package_resource_name (t : String) : Option (String × String) :=
  match splitSlash t with
  | [n] => some (("", n))
  | [p, n] => some ((p, n))
  | _ => none

/-- The schema lookup table of the external collaborator, keyed by
(package, name). -/
abbrev SchemaEnv := List ((String × String) × MsgSpec)

/-- Modelled from the spec: the schema-lookup collaborator
(`roslib.msgs.load_by_type`) — given (package, name), return the schema of
the referenced composite type, failing when it cannot be located. -/
def load_by_type (env : SchemaEnv) (pkg : String) (name : String) : Option MsgSpec :=
  env.lookup ((pkg, name))

/-- The fixed builtin-kind-to-C++-type table `MSG_TYPE_TO_CPP` of
`genmsg_cpp.py`. -/
def MSG_TYPE_TO_CPP : List (String × String) :=
  [(("byte"), ("int8_t")), (("char"), ("uint8_t")),
   (("bool"), ("uint8_t")),
   (("uint8"), ("uint8_t")), (("int8"), ("int8_t")),
   (("uint16"), ("uint16_t")), (("int16"), ("int16_t")),
   (("uint32"), ("uint32_t")), (("int32"), ("int32_t")),
   (("uint64"), ("uint64_t")), (("int64"), ("int64_t")),
   (("float32"), ("float")),
   (("float64"), ("double")),
   (("string"), ("std::string")),
   (("time"), ("ros::Time")),
   (("duration"), ("ros::Duration"))]

/-- The array-modifier branch at the end of `genmsg_cpp.msg_type_to_cpp`:
a scalar leaves the base expression unchanged, a variable array wraps it in
`std::vector`, a fixed array of length `n` wraps it in `boost::array`
parameterized by `n`. -/
def wrapArray (arr : ArraySpec) (cpp : String) : String :=
  match arr with
  | ArraySpec.scalar => cpp
  | ArraySpec.variableArray => "std::vector<" ++ cpp ++ ">"
  | ArraySpec.fixedArray n => "boost::array<" ++ cpp ++ ", " ++ toString n ++ ">"

/-- `genmsg_cpp.msg_type_to_cpp`: map a parsed field type to its C++ type
expression.  Builtins go through the fixed table; a bare name is either the
conventional header type (mapped to `roslib::Header`) or used verbatim;
a package-qualified name `pkg/msg` maps to `pkg::msg`; the array modifier
then wraps the base expression. -/
def msg_type_to_cpp (t : MsgType) : String :=
  let cpp_type :=
    if is_builtin t.base then ((MSG_TYPE_TO_CPP.lookup t.base).getD (""))
    else if (splitSlash t.base).length = 1 then
      if is_header_type t.base then "roslib::Header" else t.base
    else
      ((splitSlash t.base).headD ("")) ++ "::" ++ (((splitSlash t.base).tail).headD (""))
  wrapArray t.arr cpp_type

/-- Python `str.upper`, restricted to its effect on ASCII letters. -/
def pyUpper (s : String) : String :=
  String.mk (s.data.map Char.toUpper)

/-- The double-inclusion guard macro `'%s_%s_H' % (pkg.upper(), msg.upper())`
shared by `write_begin` and `write_end`. -/
def guardMacro (pkg msg : String) : String :=
  pyUpper pkg ++ "_" ++ pyUpper msg ++ "_H"

/-- `genmsg_cpp.write_begin`: the header comment and the opening of the
double-inclusion guard, one list entry per `s.write`. -/
def write_begin (pkg msg file : String) : List String :=
  [("/* Auto-generated by genmsg_cpp for file ") ++ file ++ (" */\n"),
   ("#ifndef ") ++ guardMacro pkg msg ++ ("\n"),
   ("#define ") ++ guardMacro pkg msg ++ ("\n")]

/-- `genmsg_cpp.write_end`: the closing of the double-inclusion guard. -/
def write_end (pkg msg : String) : List String :=
  [("#endif // ") ++ guardMacro pkg msg ++ ("\n")]

/-- The fixed conditional include emitted for the conventional header type. -/
def headerInclude : String := "#include \"roslib/Header.h\"\n"

/-- The conditional include emitted for a non-builtin, non-header base
type `t`. -/
def includeLine (t : String) : String :=
  ("#include \"") ++ t ++ (".h\"\n")

/-- The per-field loop of `genmsg_cpp.write_includes`: builtins contribute
nothing, a header-spelled type contributes the fixed header include, any
other non-builtin type contributes `#include "<base>.h"`. -/
def includeChunks : List MsgField → List String
  | [] => []
  | f :: rest =>
    if is_builtin f.type.base then includeChunks rest
    else if is_header_type f.type.base then headerInclude :: includeChunks rest
    else includeLine f.type.base :: includeChunks rest

/-- `genmsg_cpp.write_includes`: six unconditional includes, the per-field
conditional includes, then a blank line. -/
def write_includes (spec : MsgSpec) : List String :=
  [("#include <string>\n"), ("#include <vector>\n"),
   ("#include \"ros/serialization.h\"\n"),
   ("#include \"ros/builtin_message_traits.h\"\n"),
   ("#include \"ros/message.h\"\n"),
   ("#include \"ros/time.h\"\n\n")]
  ++ includeChunks spec.fields ++ [("\n")]

/-- The integer-ish builtin kinds of `genmsg_cpp.default_value`'s first
membership test, in source order. -/
def INT_KINDS : List String :=
  [("byte"), ("int8"), ("int16"), ("int32"), ("int64"),
   ("char"), ("uint8"), ("uint16"), ("uint32"), ("uint64")]

/-- The floating builtin kinds of `genmsg_cpp.default_value`'s second
membership test. -/
def FLOAT_KINDS : List String := [("float32"), ("float64")]

/-- `genmsg_cpp.default_value`: the literal default for a base type —
`0` for integer-ish kinds, `0.0` for floating kinds, `false` for bool,
and the empty string for every other type. -/
def default_value (t : String) : String :=
  if t ∈ INT_KINDS then "0"
  else if t ∈ FLOAT_KINDS then "0.0"
  else if t = "bool" then "false"
  else ""

/-- The initializer-list entry emitted for a non-array field `f` with
initializer text `v` (`'  %s(%s)\n' % (name, default_value(base_type))`). -/
def ctorInitOf (f : MsgField) (v : String) : String :=
  ("  ") ++ f.name ++ ("(") ++ v ++ (")\n")

/-- The initializer-list loop of `genmsg_cpp.write_constructor`: array
fields are skipped; each remaining field contributes a lead token
(`  : ` for the first, `  , ` afterwards, counted by `i`) and its
initializer entry. -/
def ctorInitChunks (i : Nat) : List MsgField → List String
  | [] => []
  | f :: rest =>
    if f.type.arr = ArraySpec.scalar then
      (if i = 0 then "  : " else "  , ")
        :: ctorInitOf f (default_value f.type.base)
        :: ctorInitChunks (i + 1) rest
    else ctorInitChunks i rest

/-- The constructor-body loop of `genmsg_cpp.write_constructor`: only
fixed-length array fields whose base type has a non-empty default literal
get a fill statement. -/
def ctorFillChunks : List MsgField → List String
  | [] => []
  | f :: rest =>
    match f.type.arr with
    | ArraySpec.fixedArray _ =>
      if (default_value f.type.base).length > 0 then
        (("    ") ++ f.name ++ (".assign(") ++ default_value f.type.base ++ (");\n"))
          :: ctorFillChunks rest
      else ctorFillChunks rest
    | _ => ctorFillChunks rest

/-- `genmsg_cpp.write_constructor`: signature line, initializer list,
body with fixed-array default fills. -/
def write_constructor (msg : String) (spec : MsgSpec) : List String :=
  (("  ") ++ msg ++ ("()\n"))
    :: ctorInitChunks 0 spec.fields
    ++ (("  \x7b\n") :: ctorFillChunks spec.fields ++ [("  \x7d\n\n")])

/-- `genmsg_cpp.write_member`: a per-field type alias and the member
declaration. -/
def write_member (f : MsgField) : List String :=
  [("  typedef ") ++ msg_type_to_cpp f.type ++ (" _") ++ f.name ++ ("_type;\n"),
   ("  ") ++ msg_type_to_cpp f.type ++ (" ") ++ f.name ++ (";\n\n")]

/-- `genmsg_cpp.write_members`: one `write_member` per field, in order. -/
def write_members (spec : MsgSpec) : List String :=
  (spec.fields.map write_member).flatten

/-- The allowed constant kinds of `genmsg_cpp.write_constant`'s membership
test, in source order.  (Note: `bool` is not in this list.) -/
def CONSTANT_TYPES : List String :=
  [("byte"), ("int8"), ("int16"), ("int32"), ("int64"),
   ("char"), ("uint8"), ("uint16"), ("uint32"), ("uint64"),
   ("float32"), ("float64")]

/-- `genmsg_cpp.write_constant`: raise `ValueError` (here: `none`) when the
constant's declared type is not in `CONSTANT_TYPES`, otherwise emit the
static compile-time binding. -/
def write_constant (c : Constant) : Option String :=
  if c.type ∉ CONSTANT_TYPES then none
  else
    some (("  static const ") ++ msg_type_to_cpp ⟨c.type, ArraySpec.scalar⟩
      ++ (" ") ++ c.name ++ (" = ") ++ c.val ++ (";\n"))

/-- The per-constant loop of `genmsg_cpp.write_constants`; the first
failing constant aborts generation. -/
def write_constants_list : List Constant → Option (List String)
  | [] => some []
  | c :: rest =>
    match write_constant c with
    | none => none
    | some s => (write_constants_list rest).map (fun l => s :: l)

/-- `genmsg_cpp.write_constants`: all constant bindings followed by a blank
line. -/
def write_constants (spec : MsgSpec) : Option (List String) :=
  (write_constants_list spec.constants).map (fun l => l ++ [("\n")])

/-- The first pass of `genmsg_cpp.is_fixed_length`: walk the fields in
order; a variable-length array or a `string` base type means an early
`return False` (encoded `none`); otherwise collect the non-builtin base
types in field order. -/
def collectTypes : List MsgField → Option (List String)
  | [] => some []
  | f :: rest =>
    if f.type.arr = ArraySpec.variableArray then none
    else if f.type.base = "string" then none
    else if is_builtin f.type.base then collectTypes rest
    else (collectTypes rest).map (fun ts => f.type.base :: ts)

/-- The auxiliary fold of `pySet`. -/
def pySetAux (acc : List String) : List String → List String
  | [] => acc
  | t :: rest => pySetAux (if t ∈ acc then acc else acc ++ [t]) rest

/-- Python's `set(...)` collapsing of the collected base types: duplicate
removal (only the member set influences the recursion's result). -/
def pySet (l : List String) : List String :=
  pySetAux [] l

/-- The second loop of `genmsg_cpp.is_fixed_length`: for each collected
distinct base type, derive the lookup key, resolve the referenced schema
(`none` models the propagated lookup failure) and require the recursive
check (`rec'`) to succeed. -/
def fixedLenGo (env : SchemaEnv) (rec' : MsgSpec → String → Option Bool)
    (package : String) : List String → Option Bool
  | [] => some true
  | t :: rest =>
    match package_resource_name t with
    | none => none
    | some (pkg0, name) =>
      match load_by_type env (if pkg0 = "" then package else pkg0) name with
      | none => none
      | some spec2 =>
        match rec' spec2 (if pkg0 = "" then package else pkg0) with
        | none => none
        | some false => some false
        | some true => fixedLenGo env rec' package rest

/-- `genmsg_cpp.is_fixed_length`, fuelled: the source recursion has no
cycle guard (schema graphs are assumed acyclic upstream), so the embedding
spends one unit of fuel per nesting level; `none` models both fuel
exhaustion and a failed schema lookup. -/
def is_fixed_length (env : SchemaEnv) : Nat → MsgSpec → String → Option Bool
  | 0, _, _ => none
  | fuel + 1, spec, package =>
    match collectTypes spec.fields with
    | none => some false
    | some ts => fixedLenGo env (is_fixed_length env fuel) package (pySet ts)

/-- `genmsg_cpp.write_deprecated_member_functions`. -/
def write_deprecated_member_functions (pkg msg : String) : List String :=
  [("  virtual const std::string __getDataType() const \x7b return ros::message_traits::datatype<")
     ++ pkg ++ ("::") ++ msg ++ (">(); \x7d\n"),
   ("  virtual const std::string __getMD5Sum() const \x7b return ros::message_traits::md5sum<")
     ++ pkg ++ ("::") ++ msg ++ (">(); \x7d\n"),
   ("  virtual const std::string __getMessageDefinition() const \x7b return ros::message_traits::definition<")
     ++ pkg ++ ("::") ++ msg ++ (">(); \x7d\n"),
   ("  virtual uint32_t serializationLength() const \x7b return ros::serialization::Serializer<")
     ++ pkg ++ ("::") ++ msg ++ (">::serializedLength(*this); \x7d\n"),
   ("  virtual uint8_t *serialize(uint8_t *write_ptr, uint32_t seq) const \x7b ros::serialization::Buffer b(write_ptr, 1000000000); b = ros::serialization::Serializer<")
     ++ pkg ++ ("::") ++ msg ++ (">::write(b, *this); return b.data; \x7d\n"),
   ("  virtual uint8_t *deserialize(uint8_t *read_ptr) \x7b ros::serialization::Buffer b(read_ptr, 1000000000); b = ros::serialization::Serializer<")
     ++ pkg ++ ("::") ++ msg ++ (">::read(b, *this); return b.data; \x7d\n\n")]

/-- `genmsg_cpp.write_struct`: the struct head, constructor, members,
constants (whose failure aborts), deprecated member functions and the
shared-pointer typedefs. -/
def write_struct (spec : MsgSpec) (pkg msg : String) : Option (List String) :=
  (write_constants spec).map (fun constChunks =>
    (("struct ") ++ msg ++ (" : public ros::Message\n\x7b\n"))
      :: (write_constructor msg spec ++ write_members spec ++ constChunks
          ++ write_deprecated_member_functions pkg msg
          ++ [("  typedef boost::shared_ptr<") ++ pkg ++ ("::") ++ msg ++ ("> Ptr;\n"),
              ("  typedef boost::shared_ptr<") ++ pkg ++ ("::") ++ msg ++ (" const> ConstPtr;\n"),
              ("\x7d; // struct ") ++ msg ++ ("\n"),
              ("typedef boost::shared_ptr<") ++ pkg ++ ("::") ++ msg ++ ("> ") ++ msg ++ ("Ptr;\n"),
              ("typedef boost::shared_ptr<") ++ pkg ++ ("::") ++ msg ++ (" const> ") ++ msg ++ ("ConstPtr;\n")]))

/-- `genmsg_cpp.write_traits_declarations`. -/
def write_traits_declarations (pkg msg : String) : List String :=
  [("namespace ros\n\x7b\n"),
   ("namespace message_traits\n\x7b\n"),
   ("template<> inline const char* md5sum<") ++ pkg ++ ("::") ++ msg ++ (">();\n"),
   ("template<> inline const char* datatype<") ++ pkg ++ ("::") ++ msg ++ (">();\n"),
   ("template<> inline const char* definition<") ++ pkg ++ ("::") ++ msg ++ (">();\n"),
   ("\x7d // namespace message_traits\n"),
   ("\x7d // namespace ros\n\n")]

/-- Replace every occurrence of the character `c` by the character list
`rep` (Python `str.replace` for the single-character patterns used by
`compute_full_text_escaped`). -/
def replaceChar (c : Char) (rep : List Char) : List Char → List Char
  | [] => []
  | x :: xs =>
    if x = c then rep ++ replaceChar c rep xs else x :: replaceChar c rep xs

/-- Python `line.replace(old, new)` for a one-character `old`. -/
def pyReplaceChar (c : Char) (rep : String) (s : String) : String :=
  String.mk (replaceChar c rep.data s.data)

/-- `genmsg_cpp.compute_full_text_escaped`: split the concatenated
definition text into lines and emit each line as a double-quoted fragment
terminated by an escaped newline.  The source's two `line.replace(...)`
calls (backslash and double-quote escaping) discard their results — Python
strings are immutable and the returned values are never assigned — so the
fragment contains the original, unescaped line. -/
def compute_full_text_escaped (definition : String) : String :=
  String.join (((splitCharList ('\n') definition.data).map (fun l => String.mk l)).map
    (fun line => ("\"") ++ line ++ ("\\n\"\n")))

/-- The behaviour the source's docstring and the spec promise for
`compute_full_text_escaped`: every backslash doubled and every double
quote backslash-escaped before the line is embedded in its fragment. -/
def compute_full_text_escaped_claimed (definition : String) : String :=
  String.join (((splitCharList ('\n') definition.data).map (fun l => String.mk l)).map
    (fun line =>
      ("\"") ++ pyReplaceChar ('"') ("\\\"") (pyReplaceChar ('\\') ("\\\\") line)
        ++ ("\\n\"\n")))

/-- `genmsg_cpp.write_traits_bodies`: md5, datatype and definition trait
bodies, then the header-capability chunks when the schema has a header,
then the fixed-size marker when `is_fixed_length` holds; a lookup failure
(or fuel exhaustion) inside `is_fixed_length` aborts generation. -/
def write_traits_bodies (env : SchemaEnv) (fuel : Nat) (spec : MsgSpec)
    (pkg msg md5sum deftext : String) : Option (List String) :=
  (is_fixed_length env fuel spec pkg).map (fun fixed =>
    [("namespace ros\n\x7b\n"),
     ("namespace message_traits\n\x7b\n"),
     ("template<> inline const char* md5sum<") ++ pkg ++ ("::") ++ msg
       ++ (">() \x7b return \"") ++ md5sum ++ ("\"; \x7d\n"),
     ("template<> inline const char* datatype<") ++ pkg ++ ("::") ++ msg
       ++ (">() \x7b return \"") ++ pkg ++ ("/") ++ msg ++ ("\"; \x7d\n"),
     ("template<> inline const char* definition<") ++ pkg ++ ("::") ++ msg
       ++ (">()\n\x7b\n  return\n"),
     compute_full_text_escaped deftext,
     (";\n\x7d\n\n")]
    ++ (if spec.hasHeader then
          [("template<> struct HasHeader<") ++ pkg ++ ("::") ++ msg
             ++ ("> : public TrueType \x7b\x7d;\n"),
           ("template<> inline roslib::Header* getHeader(") ++ pkg ++ ("::") ++ msg
             ++ ("& m) \x7b return &m.header; \x7d\n")]
        else [])
    ++ (if fixed then
          [("template<> struct IsFixedSize<") ++ pkg ++ ("::") ++ msg
             ++ ("> : public TrueType \x7b\x7d;\n")]
        else [])
    ++ [("\n"), ("\x7d // namespace message_traits\n"), ("\x7d // namespace ros\n\n")])

/-- `genmsg_cpp.write_serialization_declarations`. -/
def write_serialization_declarations (pkg msg : String) : List String :=
  [("namespace ros\n\x7b\n"),
   ("namespace serialization\n\x7b\n"),
   ("template<> struct Serializer<") ++ pkg ++ ("::") ++ msg ++ (">\n\x7b\n"),
   ("  inline static Buffer write(Buffer buffer, const ") ++ pkg ++ ("::") ++ msg ++ ("& m);\n"),
   ("  inline static Buffer read(Buffer buffer, ") ++ pkg ++ ("::") ++ msg ++ ("& m);\n"),
   ("  inline static uint32_t serializedLength(const ") ++ pkg ++ ("::") ++ msg ++ ("& m);\n"),
   ("\x7d;\n"),
   ("\x7d // namespace serialization\n"),
   ("\x7d // namespace ros\n\n")]

/-- The statement emitted for one field by the `write` routine loop. -/
def serLine (f : MsgField) : String :=
  ("  buffer = serialize(buffer, m.") ++ f.name ++ (");\n")

/-- The statement emitted for one field by the `read` routine loop. -/
def deserLine (f : MsgField) : String :=
  ("  buffer = deserialize(buffer, m.") ++ f.name ++ (");\n")

/-- The statement emitted for one field by the `serializedLength` loop. -/
def lenLine (f : MsgField) : String :=
  ("  size += serializationLength(m.") ++ f.name ++ (");\n")

/-- `genmsg_cpp.write_serialization_bodies`: the `write`, `read` and
`serializedLength` routine bodies, each with one statement per field in
declared order. -/
def write_serialization_bodies (spec : MsgSpec) (pkg msg : String) : List String :=
  [("namespace ros\n\x7b\n"),
   ("namespace serialization\n\x7b\n\n"),
   ("inline Buffer Serializer<") ++ pkg ++ ("::") ++ msg ++ (">::write(Buffer buffer, const ")
     ++ pkg ++ ("::") ++ msg ++ ("& m)\n\x7b\n")]
  ++ spec.fields.map serLine
  ++ [("  return buffer;\n\x7d\n\n"),
      ("inline Buffer Serializer<") ++ pkg ++ ("::") ++ msg ++ (">::read(Buffer buffer, ")
        ++ pkg ++ ("::") ++ msg ++ ("& m)\n\x7b\n")]
  ++ spec.fields.map deserLine
  ++ [("  return buffer;\n\x7d\n\n"),
      ("inline uint32_t Serializer<") ++ pkg ++ ("::") ++ msg ++ (">::serializedLength(const ")
        ++ pkg ++ ("::") ++ msg ++ ("& m)\n\x7b\n"),
      ("  uint32_t size = 0;\n")]
  ++ spec.fields.map lenLine
  ++ [("  return size;\n\x7d\n\n"),
      ("\x7d // namespace serialization\n"),
      ("\x7d // namespace ros\n\n")]

/-- The input of one generation run: the schema-lookup environment and
recursion fuel for `is_fixed_length`, the parser collaborator's output
(owning package, type name, schema), the schema file path, and the
dependency-digest collaborator's output (md5 hash and concatenated
definition text). -/
structure GenInput where
  env : SchemaEnv
  fuel : Nat
  package : String
  name : String
  msg_path : String
  md5sum : String
  deftext : String
  spec : MsgSpec
deriving DecidableEq

/-- `genmsg_cpp.generate`: sequence all emitters into the single output
compilation unit; a constant error or an `is_fixed_length` failure aborts
the run with no output. -/
def generate (i : GenInput) : Option String :=
  match write_struct i.spec i.package i.name,
        write_traits_bodies i.env i.fuel i.spec i.package i.name i.md5sum i.deftext with
  | some structChunks, some traitsChunks =>
    some (String.join (
      write_begin i.package i.name i.msg_path
      ++ write_includes i.spec
      ++ [("namespace ") ++ i.package ++ (" \x7b struct ") ++ i.name ++ ("; \x7d\n\n")]
      ++ write_traits_declarations i.package i.name
      ++ write_serialization_declarations i.package i.name
      ++ [("namespace ") ++ i.package ++ ("\n\x7b\n")]
      ++ structChunks
      ++ [("\x7d // namespace ") ++ i.package ++ ("\n\n")]
      ++ traitsChunks
      ++ write_serialization_bodies i.spec i.package i.name
      ++ write_end i.package i.name))
  | _, _ => none

example : splitSlash ("robot_msgs/Point") = [("robot_msgs"), ("Point")] := by decide

example : msg_type_to_cpp ⟨"robot_msgs/Point", ArraySpec.variableArray⟩
    = "std::vector<robot_msgs::Point>" := by decide

example : msg_type_to_cpp ⟨"Header", ArraySpec.scalar⟩ = "roslib::Header" := by decide

example : msg_type_to_cpp ⟨"int32", ArraySpec.fixedArray 4⟩ = "boost::array<int32_t, 4>" := by
  decide

example :
    is_fixed_length [((("robot_msgs"), ("Point")),
        ⟨[⟨⟨"float64", ArraySpec.scalar⟩, "x"⟩], [], false⟩)] 2
      ⟨[⟨⟨"robot_msgs/Point", ArraySpec.scalar⟩, "p"⟩], [], false⟩ ("me") = some true := by
  decide

example :
    is_fixed_length [] 5 ⟨[⟨⟨"string", ArraySpec.scalar⟩, "s"⟩], [], false⟩ ("me")
      = some false := by decide

lemma string_mk_data (s : String) : String.mk s.data = s := by
  cases s
  rfl

lemma splitCharList_not_mem {c : Char} : ∀ {xs : List Char}, c ∉ xs →
    splitCharList c xs = [xs] := by
  intro xs
  induction xs with
  | nil => intro _; rfl
  | cons x xs ih =>
    intro h
    have hx : ¬ x = c := fun hxc => h (hxc ▸ List.mem_cons_self x xs)
    have hxs : c ∉ xs := fun hm => h (List.mem_cons_of_mem x hm)
    simp [splitCharList, hx, ih hxs]

lemma splitCharList_sep {c : Char} : ∀ {xs ys : List Char}, c ∉ xs → c ∉ ys →
    splitCharList c (xs ++ c :: ys) = [xs, ys] := by
  intro xs ys hx hy
  induction xs with
  | nil =>
    simp [splitCharList, splitCharList_not_mem hy]
  | cons x xs ih =>
    have hxc : ¬ x = c := fun h => hx (h ▸ List.mem_cons_self x xs)
    have hxs : c ∉ xs := fun hm => hx (List.mem_cons_of_mem x hm)
    simp only [List.cons_append, splitCharList, hxc, if_false]
    rw [List.append_eq, ih hxs]

lemma splitSlash_qualified (p n : String) (hp : ('/') ∉ p.data) (hn : ('/') ∉ n.data) :
    splitSlash (p ++ "/" ++ n) = [p, n] := by
  unfold splitSlash
  have hdata : (p ++ "/" ++ n).data = p.data ++ ('/') :: n.data := by
    rw [String.data_append, String.data_append, List.append_assoc]
    rfl
  rw [hdata, splitCharList_sep hp hn]
  simp [string_mk_data]

/-- Claim C8: a package-qualified composite type maps to the qualified
expression `pkg::name`; a bare name denoting the conventional header type
maps to the fixed `roslib::Header` expression; array modifiers wrap the
base expression unchanged — a scalar is left as-is, a variable array is
wrapped in `std::vector`, a fixed array of length `k` in
`boost::array<·, k>`. -/
theorem msg_type_to_cpp_composite (p n : String) (arr : ArraySpec)
    (hp : ('/') ∉ p.data) (hn : ('/') ∉ n.data)
    (hb : is_builtin (p ++ "/" ++ n) = false) :
    msg_type_to_cpp ⟨p ++ "/" ++ n, arr⟩ = wrapArray arr (p ++ "::" ++ n)
    ∧ msg_type_to_cpp ⟨"Header", arr⟩ = wrapArray arr ("roslib::Header")
    ∧ (∀ b : String, wrapArray ArraySpec.scalar b = b)
    ∧ (∀ b : String, wrapArray ArraySpec.variableArray b = ("std::vector<") ++ b ++ (">"))
    ∧ (∀ (b : String) (k : Nat),
        wrapArray (ArraySpec.fixedArray k) b
          = ("boost::array<") ++ b ++ (", ") ++ toString k ++ (">")) := by
  refine ⟨?_, rfl, fun b => rfl, fun b => rfl, fun b k => rfl⟩
  simp [msg_type_to_cpp, hb, splitSlash_qualified p n hp hn]

theorem msg_type_to_cpp_composite_witness :
    msg_type_to_cpp ⟨("robot_msgs") ++ ("/") ++ ("Point"), ArraySpec.variableArray⟩
      = wrapArray ArraySpec.variableArray (("robot_msgs") ++ ("::") ++ ("Point")) :=
  (msg_type_to_cpp_composite ("robot_msgs") ("Point") ArraySpec.variableArray
    (by decide) (by decide) (by decide)).1

/-- Claim C10: the double-inclusion guard macro opened by `write_begin` and
closed by `write_end` is exactly the uppercased `<PACKAGE>_<NAME>_H`; two
schemas whose (package, name) pairs differ only in letter case therefore
get identical guard macros and identical guard lines. -/
theorem guard_macro_uppercase_collision (p₁ n₁ p₂ n₂ file : String)
    (hp : pyUpper p₁ = pyUpper p₂) (hn : pyUpper n₁ = pyUpper n₂) :
    guardMacro p₁ n₁ = pyUpper p₁ ++ "_" ++ pyUpper n₁ ++ "_H"
    ∧ guardMacro p₁ n₁ = guardMacro p₂ n₂
    ∧ write_begin p₁ n₁ file = write_begin p₂ n₂ file
    ∧ write_end p₁ n₁ = write_end p₂ n₂ := by
  refine ⟨rfl, ?_, ?_, ?_⟩ <;> simp [guardMacro, write_begin, write_end, hp, hn]

theorem guard_macro_uppercase_collision_witness :
    guardMacro ("std_msgs") ("String") = guardMacro ("Std_Msgs") ("string") :=
  (guard_macro_uppercase_collision ("std_msgs") ("String") ("Std_Msgs") ("string")
    ("f.msg") (by decide) (by decide)).2.1

/-- Claim C1 (code bug): `compute_full_text_escaped` emits each source line
as a separate escaped-newline-terminated fragment, but the backslash and
double-quote escaping promised by its own docstring never happens — the
two `str.replace` results are discarded.  On the definition text
`a"b\nc\d` the emitted fragments keep the raw `"` and `\`, differing from
the escaped output the claim describes. -/
theorem compute_full_text_escaped_does_not_escape :
    compute_full_text_escaped ("a\"b\nc\\d") = "\"a\"b\\n\"\n\"c\\d\\n\"\n"
    ∧ compute_full_text_escaped_claimed ("a\"b\nc\\d")
        = "\"a\\\"b\\n\"\n\"c\\\\d\\n\"\n"
    ∧ compute_full_text_escaped ("a\"b\nc\\d")
        ≠ compute_full_text_escaped_claimed ("a\"b\nc\\d") := by
  exact ⟨by decide, by decide, by decide⟩

/-- The allowed constant kinds as claim C2 states them: the numeric kinds
together with bool. -/
def SPEC_CONSTANT_TYPES : List String := CONSTANT_TYPES ++ [("bool")]

/-- Counterexample to claim C2 as stated: a constant of declared type
`bool` is rejected by `write_constant` even though the claim's allowed
numeric/bool set contains it. -/
theorem write_constant_bool_counterexample :
    ¬ (write_constant ⟨"bool", "B", "1"⟩ = none ↔ ("bool") ∉ SPEC_CONSTANT_TYPES) := by
  decide

/-- Claim C2 as amended: `write_constant` fails exactly when the constant's
declared type is outside the twelve numeric kinds of `CONSTANT_TYPES`
(so `string` and also `bool` are rejected), and an `int32` constant is
emitted as a static compile-time binding of the mapped type with the
literal value. -/
theorem write_constant_numeric_only (c : Constant) :
    (write_constant c = none ↔ c.type ∉ CONSTANT_TYPES)
    ∧ (c.type = "int32" →
        write_constant c
          = some (("  static const int32_t ") ++ c.name ++ (" = ") ++ c.val ++ (";\n")))
    ∧ (c.type = "string" → write_constant c = none)
    ∧ (c.type = "bool" → write_constant c = none) := by
  refine ⟨?_, ?_, ?_, ?_⟩
  · by_cases h : c.type ∈ CONSTANT_TYPES <;> simp [write_constant, h]
  · intro h
    simp only [write_constant, h]
    rfl
  · intro h
    simp only [write_constant, h]
    rfl
  · intro h
    simp only [write_constant, h]
    rfl

theorem write_constant_numeric_only_witness :
    write_constant ⟨"int32", "FOO", "42"⟩
      = some (("  static const int32_t ") ++ ("FOO") ++ (" = ") ++ ("42") ++ (";\n")) :=
  (write_constant_numeric_only ⟨"int32", "FOO", "42"⟩).2.1 rfl

/-- Claim C5: generation is deterministic — the emitted compilation unit is
a pure function of the generation input (schema, owning package and name,
schema path, dependency digest, lookup environment), so two runs on the
same input produce byte-identical output. -/
theorem generate_deterministic (i j : GenInput) (h : i = j) :
    generate i = generate j :=
  congrArg generate h

/-- A concrete generation input: one string field plus one int32 constant. -/
def genInputA : GenInput :=
  ⟨[], 1, ("std_msgs"), ("String"), ("p/String.msg"), ("d41d8cd9"),
   ("string data\n"),
   ⟨[⟨⟨"string", ArraySpec.scalar⟩, "data"⟩], [⟨"int32", "X", "7"⟩], false⟩⟩

/-- The same generation input written with different syntax. -/
def genInputB : GenInput :=
  { genInputA with fuel := 0 + 1 }

theorem generate_deterministic_witness : generate genInputA = generate genInputB :=
  generate_deterministic genInputA genInputB (by decide)

lemma string_data_inj {a b : String} (h : a.data = b.data) : a = b := by
  have h2 := congrArg String.mk h
  simpa [string_mk_data] using h2

lemma ctorInit_mem : ∀ (l : List MsgField) (i : Nat) (f : MsgField), f ∈ l →
    f.type.arr = ArraySpec.scalar →
    ctorInitOf f (default_value f.type.base) ∈ ctorInitChunks i l := by
  intro l
  induction l with
  | nil => intro i f hf; cases hf
  | cons g rest ih =>
    intro i f hf hs
    rcases List.mem_cons.mp hf with h | h
    · subst h
      simp [ctorInitChunks, hs]
    · by_cases hg : g.type.arr = ArraySpec.scalar
      · have hm := ih (i + 1) f h hs
        simp [ctorInitChunks, hg, hm]
      · have hm := ih i f h hs
        simpa [ctorInitChunks, hg] using hm

/-- Claim C6 as stated: in the emitted constructor every non-array field of
an integer-ish, floating or bool kind is default-initialized with the
family's literal, and a non-array field of any other type (string, time,
duration, composite) receives no explicit initializer at all. -/
def constructorClaim (msg : String) (spec : MsgSpec) : Prop :=
  ∀ f ∈ spec.fields, f.type.arr = ArraySpec.scalar →
    ((f.type.base ∈ INT_KINDS → ctorInitOf f ("0") ∈ write_constructor msg spec)
     ∧ (f.type.base ∈ FLOAT_KINDS → ctorInitOf f ("0.0") ∈ write_constructor msg spec)
     ∧ (f.type.base = "bool" → ctorInitOf f ("false") ∈ write_constructor msg spec)
     ∧ (f.type.base ∉ INT_KINDS → f.type.base ∉ FLOAT_KINDS → f.type.base ≠ "bool" →
         ∀ v : String, ctorInitOf f v ∉ write_constructor msg spec))

/-- Counterexample to claim C6 as stated: a non-array `string` field does
receive an explicit initializer — the emitted initializer list contains the
empty-argument entry `s()`. -/
theorem write_constructor_string_counterexample :
    ¬ constructorClaim ("M") ⟨[⟨⟨"string", ArraySpec.scalar⟩, "s"⟩], [], false⟩ := by
  intro h
  have h4 := (h ⟨⟨"string", ArraySpec.scalar⟩, "s"⟩ (by decide) rfl).2.2.2
    (by decide) (by decide) (by decide) ("")
  exact h4 (by decide)

/-- Claim C6 as amended: every non-array field appears in the emitted
initializer list with the literal produced by `default_value` — `0` for
integer-ish kinds, `0.0` for floating kinds, `false` for bool — while a
non-array field of any other type (string, time, duration, composite)
appears with an empty initializer argument (value-initialization) instead
of being omitted. -/
theorem write_constructor_default_inits (msg : String) (spec : MsgSpec)
    (f : MsgField) (hf : f ∈ spec.fields) (hs : f.type.arr = ArraySpec.scalar) :
    ctorInitOf f (default_value f.type.base) ∈ write_constructor msg spec
    ∧ (f.type.base ∈ INT_KINDS → default_value f.type.base = "0")
    ∧ (f.type.base ∈ FLOAT_KINDS → default_value f.type.base = "0.0")
    ∧ (f.type.base = "bool" → default_value f.type.base = "false")
    ∧ (f.type.base ∉ INT_KINDS → f.type.base ∉ FLOAT_KINDS → f.type.base ≠ "bool" →
        default_value f.type.base = "") := by
  refine ⟨?_, ?_, ?_, ?_, ?_⟩
  · have hm := ctorInit_mem spec.fields 0 f hf hs
    unfold write_constructor
    exact List.mem_cons_of_mem _ (List.mem_append_left _ hm)
  · intro h
    simp [default_value, h]
  · intro h
    have h1 : f.type.base = "float32" ∨ f.type.base = "float64" := by
      simpa [FLOAT_KINDS] using h
    rcases h1 with h1 | h1 <;> rw [h1] <;> decide
  · intro h
    rw [h]
    decide
  · intro h1 h2 h3
    simp [default_value, h1, h2, h3]

theorem write_constructor_default_inits_witness :
    ctorInitOf ⟨⟨"string", ArraySpec.scalar⟩, "data"⟩ (default_value ("string"))
      ∈ write_constructor ("String")
          ⟨[⟨⟨"string", ArraySpec.scalar⟩, "data"⟩], [], false⟩ :=
  (write_constructor_default_inits ("String")
    ⟨[⟨⟨"string", ArraySpec.scalar⟩, "data"⟩], [], false⟩
    ⟨⟨"string", ArraySpec.scalar⟩, "data"⟩ (by decide) rfl).1

/-- Occurrence count of a string in a chunk list. -/
def countStr (s : String) : List String → Nat
  | [] => 0
  | x :: xs => (if x = s then 1 else 0) + countStr s xs

lemma includeLine_inj {a b : String} (h : includeLine a = includeLine b) : a = b := by
  have hd := congrArg String.data h
  simp only [includeLine, String.data_append] at hd
  exact string_data_inj (List.append_cancel_left (List.append_cancel_right hd))

lemma headerInclude_eq_includeLine : headerInclude = includeLine ("roslib/Header") := rfl

lemma headerInclude_ne_includeLine {t : String} (hh : is_header_type t = false) :
    headerInclude ≠ includeLine t := by
  rw [headerInclude_eq_includeLine]
  intro h
  have ht := includeLine_inj h
  rw [← ht] at hh
  exact absurd hh (by decide)

lemma includeChunks_countStr (t : String) (hb : is_builtin t = false)
    (hh : is_header_type t = false) :
    ∀ l : List MsgField,
      countStr (includeLine t) (includeChunks l)
        = (l.filter (fun f => decide (f.type.base = t))).length := by
  intro l
  induction l with
  | nil => rfl
  | cons g rest ih =>
    by_cases hgb : is_builtin g.type.base = true
    · have hgt : ¬ g.type.base = t := by
        intro he
        rw [he, hb] at hgb
        exact Bool.noConfusion hgb
      simp [includeChunks, countStr, hgb, hgt, ih]
    · have hgb' : is_builtin g.type.base = false := by
        simpa using hgb
      by_cases hgh : is_header_type g.type.base = true
      · have hgt : ¬ g.type.base = t := by
          intro he
          rw [he, hh] at hgh
          exact Bool.noConfusion hgh
        have hneq : ¬ headerInclude = includeLine t := headerInclude_ne_includeLine hh
        simp [includeChunks, countStr, hgb', hgh, hneq, hgt, ih]
      · have hgh' : is_header_type g.type.base = false := by
          simpa using hgh
        by_cases he : g.type.base = t
        · simp [includeChunks, countStr, hgb', hgh', he, hb, hh, ih]
          omega
        · have hne : ¬ includeLine g.type.base = includeLine t :=
            fun hx => he (includeLine_inj hx)
          simp [includeChunks, countStr, hgb', hgh', hne, he, ih]

lemma includeChunks_header_countStr :
    ∀ l : List MsgField,
      countStr headerInclude (includeChunks l)
        = (l.filter (fun f => !is_builtin f.type.base && is_header_type f.type.base)).length := by
  intro l
  induction l with
  | nil => rfl
  | cons g rest ih =>
    by_cases hgb : is_builtin g.type.base = true
    · simp [includeChunks, countStr, hgb, ih]
    · have hgb' : is_builtin g.type.base = false := by
        simpa using hgb
      by_cases hgh : is_header_type g.type.base = true
      · simp [includeChunks, countStr, hgb', hgh, ih]
        omega
      · have hgh' : is_header_type g.type.base = false := by
          simpa using hgh
        have hne : ¬ includeLine g.type.base = headerInclude := by
          rw [headerInclude_eq_includeLine]
          intro hx
          have := includeLine_inj hx
          rw [this] at hgh'
          exact absurd hgh' (by decide)
        simp [includeChunks, countStr, hgb', hgh', hne, ih]

/-- Claim C7 as stated: the includes section contains exactly one
conditional include per distinct non-builtin field type referenced by the
schema (several fields of one type yield a single include), with the
conventional header type mapped to its fixed include regardless of
spelling. -/
def includesClaim (spec : MsgSpec) : Prop :=
  ∀ t : String, is_builtin t = false →
    (∃ f ∈ spec.fields, f.type.base = t) →
    countStr (if is_header_type t then headerInclude else includeLine t)
      (write_includes spec) = 1

/-- Counterexample to claim C7 as stated: two fields of the same composite
type produce two identical conditional includes — the loop in
`write_includes` does not deduplicate. -/
theorem write_includes_duplicate_counterexample :
    ¬ includesClaim ⟨[⟨⟨"robot_msgs/Point", ArraySpec.scalar⟩, "a"⟩,
                      ⟨⟨"robot_msgs/Point", ArraySpec.scalar⟩, "b"⟩], [], false⟩ := by
  intro h
  have h1 := h ("robot_msgs/Point") (by decide)
    ⟨⟨⟨"robot_msgs/Point", ArraySpec.scalar⟩, "a"⟩, by decide, rfl⟩
  exact absurd h1 (by decide)

/-- Claim C7 as amended: the conditional includes section contains one
include per non-builtin field occurrence — a type referenced by `k` fields
yields `k` copies of its include line (no deduplication) — and the
conventional header type contributes its fixed include once per
header-typed field regardless of spelling. -/
theorem write_includes_per_occurrence (l : List MsgField) (t : String)
    (hb : is_builtin t = false) (hh : is_header_type t = false) :
    countStr (includeLine t) (includeChunks l)
      = (l.filter (fun f => decide (f.type.base = t))).length
    ∧ countStr headerInclude (includeChunks l)
      = (l.filter (fun f => !is_builtin f.type.base && is_header_type f.type.base)).length :=
  ⟨includeChunks_countStr t hb hh l, includeChunks_header_countStr l⟩

/-- Two fields of the same composite type, used to exercise the
per-occurrence include count. -/
def dupPointFields : List MsgField :=
  [⟨⟨"robot_msgs/Point", ArraySpec.scalar⟩, "a"⟩,
   ⟨⟨"robot_msgs/Point", ArraySpec.scalar⟩, "b"⟩]

theorem write_includes_per_occurrence_witness :
    countStr (includeLine ("robot_msgs/Point")) (includeChunks dupPointFields)
      = (dupPointFields.filter
          (fun f => decide (f.type.base = "robot_msgs/Point"))).length :=
  (write_includes_per_occurrence dupPointFields
    ("robot_msgs/Point") (by decide) (by decide)).1

lemma collectTypes_none_bad : ∀ (l : List MsgField), collectTypes l = none →
    ∃ f ∈ l, f.type.arr = ArraySpec.variableArray ∨ f.type.base = "string" := by
  intro l
  induction l with
  | nil => intro h; cases h
  | cons g rest ih =>
    intro h
    by_cases hv : g.type.arr = ArraySpec.variableArray
    · exact ⟨g, List.mem_cons_self g rest, Or.inl hv⟩
    · by_cases hst : g.type.base = "string"
      · exact ⟨g, List.mem_cons_self g rest, Or.inr hst⟩
      · by_cases hbi : is_builtin g.type.base = true
        · have h' : collectTypes rest = none := by
            simpa [collectTypes, hv, hst, hbi] using h
          obtain ⟨f, hf, hbad⟩ := ih h'
          exact ⟨f, List.mem_cons_of_mem g hf, hbad⟩
        · have h' : collectTypes rest = none := by
            have h2 : (collectTypes rest).map (fun ts => g.type.base :: ts) = none := by
              simpa [collectTypes, hv, hst, hbi] using h
            exact Option.map_eq_none'.mp h2
          obtain ⟨f, hf, hbad⟩ := ih h'
          exact ⟨f, List.mem_cons_of_mem g hf, hbad⟩

lemma collectTypes_some_no_bad : ∀ (l : List MsgField) (ts : List String),
    collectTypes l = some ts →
    ∀ f ∈ l, ¬ f.type.arr = ArraySpec.variableArray ∧ ¬ f.type.base = "string" := by
  intro l
  induction l with
  | nil => intro ts _ f hf; cases hf
  | cons g rest ih =>
    intro ts h f hf
    by_cases hv : g.type.arr = ArraySpec.variableArray
    · simp [collectTypes, hv] at h
    · by_cases hst : g.type.base = "string"
      · simp [collectTypes, hv, hst] at h
      · rcases List.mem_cons.mp hf with rfl | hm
        · exact ⟨hv, hst⟩
        · by_cases hbi : is_builtin g.type.base = true
          · have h' : collectTypes rest = some ts := by
              simpa [collectTypes, hv, hst, hbi] using h
            exact ih ts h' f hm
          · have h2 : (collectTypes rest).map (fun ts => g.type.base :: ts) = some ts := by
              simpa [collectTypes, hv, hst, hbi] using h
            obtain ⟨ts', h3, _⟩ := Option.map_eq_some'.mp h2
            exact ih ts' h3 f hm

lemma collectTypes_mem : ∀ (l : List MsgField) (ts : List String),
    collectTypes l = some ts → ∀ t : String,
      (t ∈ ts ↔ ∃ f ∈ l, f.type.base = t ∧ is_builtin t = false) := by
  intro l
  induction l with
  | nil =>
    intro ts h t
    have hts : ts = [] := by simpa [collectTypes] using h.symm
    subst hts
    simp
  | cons g rest ih =>
    intro ts h t
    by_cases hv : g.type.arr = ArraySpec.variableArray
    · simp [collectTypes, hv] at h
    · by_cases hst : g.type.base = "string"
      · simp [collectTypes, hv, hst] at h
      · by_cases hbi : is_builtin g.type.base = true
        · have h' : collectTypes rest = some ts := by
            simpa [collectTypes, hv, hst, hbi] using h
          rw [ih ts h' t]
          constructor
          · rintro ⟨f, hf, hbase, hb⟩
            exact ⟨f, List.mem_cons_of_mem g hf, hbase, hb⟩
          · rintro ⟨f, hf, hbase, hb⟩
            rcases List.mem_cons.mp hf with rfl | hm
            · rw [hbase] at hbi
              rw [hbi] at hb
              cases hb
            · exact ⟨f, hm, hbase, hb⟩
        · have hbi' : is_builtin g.type.base = false := by
            simpa using hbi
          have h2 : (collectTypes rest).map (fun ts => g.type.base :: ts) = some ts := by
            simpa [collectTypes, hv, hst, hbi] using h
          obtain ⟨ts', h3, h4⟩ := Option.map_eq_some'.mp h2
          subst h4
          rw [List.mem_cons, ih ts' h3 t]
          constructor
          · rintro (rfl | ⟨f, hf, hbase, hb⟩)
            · exact ⟨g, List.mem_cons_self g rest, rfl, hbi'⟩
            · exact ⟨f, List.mem_cons_of_mem g hf, hbase, hb⟩
          · rintro ⟨f, hf, hbase, hb⟩
            rcases List.mem_cons.mp hf with rfl | hm
            · exact Or.inl hbase.symm
            · exact Or.inr ⟨f, hm, hbase, hb⟩

lemma pySetAux_mem : ∀ (l acc : List String) (x : String),
    x ∈ pySetAux acc l ↔ x ∈ acc ∨ x ∈ l := by
  intro l
  induction l with
  | nil => intro acc x; simp [pySetAux]
  | cons t rest ih =>
    intro acc x
    by_cases h : t ∈ acc
    · rw [pySetAux]
      simp only [h, if_true, ih]
      constructor
      · rintro (hx | hx)
        · exact Or.inl hx
        · exact Or.inr (List.mem_cons_of_mem t hx)
      · rintro (hx | hx)
        · exact Or.inl hx
        · rcases List.mem_cons.mp hx with rfl | hm
          · exact Or.inl h
          · exact Or.inr hm
    · rw [pySetAux]
      simp only [h, if_false, ih]
      rw [List.mem_append, List.mem_singleton, List.mem_cons]
      tauto

lemma pySet_mem (l : List String) (x : String) : x ∈ pySet l ↔ x ∈ l := by
  rw [pySet, pySetAux_mem]
  simp

lemma pySetAux_nodup : ∀ (l acc : List String), acc.Nodup → (pySetAux acc l).Nodup := by
  intro l
  induction l with
  | nil => intro acc h; exact h
  | cons t rest ih =>
    intro acc hacc
    rw [pySetAux]
    by_cases h : t ∈ acc
    · simp only [h, if_true]
      exact ih acc hacc
    · simp only [h, if_false]
      refine ih (acc ++ [t]) ?_
      simp [List.nodup_append, hacc, h]

lemma pySet_nodup (l : List String) : (pySet l).Nodup :=
  pySetAux_nodup l [] List.nodup_nil

lemma pySetAux_append : ∀ (l₁ l₂ acc : List String),
    pySetAux acc (l₁ ++ l₂) = pySetAux (pySetAux acc l₁) l₂ := by
  intro l₁
  induction l₁ with
  | nil => intro l₂ acc; rfl
  | cons t rest ih =>
    intro l₂ acc
    rw [List.cons_append, pySetAux, pySetAux, ih]

lemma pySet_append_mem (l : List String) (b : String) (h : b ∈ l) :
    pySet (l ++ [b]) = pySet l := by
  rw [pySet, pySetAux_append]
  have hb : b ∈ pySetAux [] l := (pySetAux_mem l [] b).mpr (Or.inr h)
  simp [pySetAux, hb]
  rfl

/-- The per-type success condition of the recursive fixed-length check:
the lookup key derives from the collected base type, the referenced schema
resolves through the schema-lookup collaborator keyed by
(package-or-owning-package, name), and the recursive check `rec'` returns
true on the referenced schema. -/
def goodType (env : SchemaEnv) (rec' : MsgSpec → String → Option Bool)
    (package t : String) : Bool :=
  match package_resource_name t with
  | none => false
  | some (pkg0, name) =>
    match load_by_type env (if pkg0 = "" then package else pkg0) name with
    | none => false
    | some spec2 => decide (rec' spec2 (if pkg0 = "" then package else pkg0) = some true)

lemma fixedLenGo_eq_true_iff (env : SchemaEnv) (rec' : MsgSpec → String → Option Bool)
    (package : String) : ∀ (ts : List String) (b : Bool),
    fixedLenGo env rec' package ts = some b →
    (b = true ↔ ∀ t ∈ ts, goodType env rec' package t = true) := by
  intro ts
  induction ts with
  | nil =>
    intro b h
    have hb : b = true := by simpa [fixedLenGo] using h.symm
    subst hb
    simp
  | cons t rest ih =>
    intro b h
    cases hp : package_resource_name t with
    | none => simp [fixedLenGo, hp] at h
    | some pr =>
      obtain ⟨pkg0, name⟩ := pr
      cases hl : load_by_type env (if pkg0 = "" then package else pkg0) name with
      | none => simp [fixedLenGo, hp, hl] at h
      | some spec2 =>
        cases hr : rec' spec2 (if pkg0 = "" then package else pkg0) with
        | none => simp [fixedLenGo, hp, hl, hr] at h
        | some br =>
          cases br with
          | false =>
            have hb : b = false := by
              have h2 : some false = some b := by
                simpa [fixedLenGo, hp, hl, hr] using h
              simpa using h2.symm
            subst hb
            constructor
            · intro hc; cases hc
            · intro hall
              have hg := hall t (List.mem_cons_self t rest)
              simp [goodType, hp, hl, hr] at hg
          | true =>
            have h' : fixedLenGo env rec' package rest = some b := by
              simpa [fixedLenGo, hp, hl, hr] using h
            rw [ih b h']
            constructor
            · intro hall t' ht'
              rcases List.mem_cons.mp ht' with rfl | hm
              · simp [goodType, hp, hl, hr]
              · exact hall t' hm
            · intro hall t' ht'
              exact hall t' (List.mem_cons_of_mem t ht')

/-- Claim C3's characterization of `is_fixed_length`, following the spec's
words: a schema is fixed-length iff no field is a variable-length array, no
field's base type is `string`, and every field whose base type is composite
(non-builtin) refers, through the schema lookup keyed by
(package-or-owning-package, name), to a schema that is itself fixed-length,
checked recursively. -/
def fixedLengthSpec (env : SchemaEnv) (fuel : Nat) (spec : MsgSpec)
    (package : String) : Bool :=
  spec.fields.all (fun f => !decide (f.type.arr = ArraySpec.variableArray))
  && spec.fields.all (fun f => !decide (f.type.base = "string"))
  && spec.fields.all (fun f =>
      if is_builtin f.type.base then true
      else goodType env (is_fixed_length env fuel) package f.type.base)

/-- Claim C3: whenever `is_fixed_length` terminates with a result (the
schema graph is acyclic and deep enough fuel is available, and every
referenced composite type resolves), the result is true iff no field is a
variable-length array, no field's base type is `string`, and every
composite field's referenced schema — resolved by
(package-or-owning-package, name) — is itself fixed-length, recursively. -/
theorem is_fixed_length_iff_spec (env : SchemaEnv) (fuel : Nat) (spec : MsgSpec)
    (package : String) (b : Bool)
    (h : is_fixed_length env (fuel + 1) spec package = some b) :
    b = fixedLengthSpec env fuel spec package := by
  rw [is_fixed_length] at h
  cases hc : collectTypes spec.fields with
  | none =>
    rw [hc] at h
    have hb : b = false := by simpa using h.symm
    subst hb
    obtain ⟨f, hf, hbad⟩ := collectTypes_none_bad spec.fields hc
    rcases hbad with hbad | hbad
    · have h1 : spec.fields.all (fun f => !decide (f.type.arr = ArraySpec.variableArray)) = false := by
        rw [List.all_eq_false]
        exact ⟨f, hf, by simp [hbad]⟩
      simp [fixedLengthSpec, h1]
    · have h2 : spec.fields.all (fun f => !decide (f.type.base = "string")) = false := by
        rw [List.all_eq_false]
        exact ⟨f, hf, by simp [hbad]⟩
      simp [fixedLengthSpec, h2]
  | some ts =>
    rw [hc] at h
    have hgood := fixedLenGo_eq_true_iff env (is_fixed_length env fuel) package (pySet ts) b h
    have hnobad := collectTypes_some_no_bad spec.fields ts hc
    have hall1 : spec.fields.all (fun f => !decide (f.type.arr = ArraySpec.variableArray)) = true := by
      rw [List.all_eq_true]
      intro f hf
      simp [(hnobad f hf).1]
    have hall2 : spec.fields.all (fun f => !decide (f.type.base = "string")) = true := by
      rw [List.all_eq_true]
      intro f hf
      simp [(hnobad f hf).2]
    have hmem := collectTypes_mem spec.fields ts hc
    have key : (∀ t ∈ pySet ts, goodType env (is_fixed_length env fuel) package t = true)
        ↔ spec.fields.all (fun f =>
            if is_builtin f.type.base then true
            else goodType env (is_fixed_length env fuel) package f.type.base) = true := by
      rw [List.all_eq_true]
      constructor
      · intro hts f hf
        by_cases hbi : is_builtin f.type.base = true
        · simp [hbi]
        · have hbi' : is_builtin f.type.base = false := by simpa using hbi
          have hin : f.type.base ∈ ts := (hmem f.type.base).mpr ⟨f, hf, rfl, hbi'⟩
          have h2 := hts f.type.base ((pySet_mem ts f.type.base).mpr hin)
          simp [hbi', h2]
      · intro hall t ht
        obtain ⟨f, hf, hbase, hbi⟩ := (hmem t).mp ((pySet_mem ts t).mp ht)
        have h2 := hall f hf
        rw [hbase, hbi] at h2
        simpa using h2
    have hb3 : (b = true) ↔ (spec.fields.all (fun f =>
        if is_builtin f.type.base then true
        else goodType env (is_fixed_length env fuel) package f.type.base) = true) :=
      hgood.trans key
    cases b with
    | true =>
      have h3 := hb3.mp rfl
      unfold fixedLengthSpec
      rw [hall1, hall2, h3]
      rfl
    | false =>
      cases hall3 : spec.fields.all (fun f =>
          if is_builtin f.type.base then true
          else goodType env (is_fixed_length env fuel) package f.type.base) with
      | false =>
        unfold fixedLengthSpec
        rw [hall1, hall2, hall3]
        rfl
      | true => cases hb3.mpr hall3

/-- A one-entry schema-lookup environment holding a fixed-length point
schema. -/
def envPoint : SchemaEnv :=
  [((("robot_msgs"), ("Point")),
    ⟨[⟨⟨"float64", ArraySpec.scalar⟩, "x"⟩, ⟨⟨"float64", ArraySpec.scalar⟩, "y"⟩],
     [], false⟩)]

/-- A schema with one builtin field and one composite field referencing the
point schema. -/
def specNav : MsgSpec :=
  ⟨[⟨⟨"int32", ArraySpec.scalar⟩, "id"⟩,
    ⟨⟨"robot_msgs/Point", ArraySpec.scalar⟩, "p"⟩], [], false⟩

theorem is_fixed_length_iff_spec_witness :
    true = fixedLengthSpec envPoint 1 specNav ("nav") :=
  is_fixed_length_iff_spec envPoint 1 specNav ("nav") true (by decide)

lemma collectTypes_append : ∀ (l₁ l₂ : List MsgField),
    collectTypes (l₁ ++ l₂)
      = (collectTypes l₁).bind (fun a => (collectTypes l₂).map (fun c => a ++ c)) := by
  intro l₁
  induction l₁ with
  | nil =>
    intro l₂
    rw [List.nil_append]
    cases collectTypes l₂ <;> simp [collectTypes]
  | cons g rest ih =>
    intro l₂
    rw [List.cons_append]
    by_cases hv : g.type.arr = ArraySpec.variableArray
    · simp [collectTypes, hv]
    · by_cases hst : g.type.base = "string"
      · simp [collectTypes, hv, hst]
      · by_cases hbi : is_builtin g.type.base = true
        · simp [collectTypes, hv, hst, hbi, ih]
        · simp only [collectTypes, hv, hst, hbi, if_false, ite_false, Bool.false_eq_true, ih]
          cases collectTypes rest <;> cases collectTypes l₂ <;> simp

/-- Claim C9: `is_fixed_length` deduplicates the collected composite base
types before recursing — the deduplicated list is duplicate-free, so each
distinct non-builtin base type is resolved and analyzed at most once per
invocation — and consequently appending to a schema another (non-variable-
array) field of an already-present composite base type leaves the result
unchanged. -/
theorem is_fixed_length_dedup (env : SchemaEnv) (fuel : Nat) (spec : MsgSpec)
    (package : String) (f g : MsgField) (hg : g ∈ spec.fields)
    (hbase : g.type.base = f.type.base)
    (hv : ¬ f.type.arr = ArraySpec.variableArray)
    (hb : is_builtin f.type.base = false) :
    (∀ l : List String, (pySet l).Nodup)
    ∧ is_fixed_length env fuel
        ⟨spec.fields ++ [f], spec.constants, spec.hasHeader⟩ package
      = is_fixed_length env fuel spec package := by
  refine ⟨pySet_nodup, ?_⟩
  have hstr : ¬ f.type.base = "string" := by
    intro he
    rw [he] at hb
    exact absurd hb (by decide)
  cases fuel with
  | zero => rfl
  | succ fuel =>
    rw [is_fixed_length, is_fixed_length]
    cases hc : collectTypes spec.fields with
    | none =>
      have hca : collectTypes (spec.fields ++ [f]) = none := by
        rw [collectTypes_append, hc]
        rfl
      rw [hca]
    | some ts =>
      have hcf : collectTypes [f] = some [f.type.base] := by
        simp [collectTypes, hv, hstr, hb]
      have hca : collectTypes (spec.fields ++ [f]) = some (ts ++ [f.type.base]) := by
        rw [collectTypes_append, hc, hcf]
        rfl
      rw [hca]
      have hmem : f.type.base ∈ ts :=
        (collectTypes_mem spec.fields ts hc f.type.base).mpr ⟨g, hg, hbase, hb⟩
      show fixedLenGo env (is_fixed_length env fuel) package (pySet (ts ++ [f.type.base]))
          = fixedLenGo env (is_fixed_length env fuel) package (pySet ts)
      rw [pySet_append_mem ts f.type.base hmem]

theorem is_fixed_length_dedup_witness :
    is_fixed_length envPoint 2
        ⟨specNav.fields ++ [⟨⟨"robot_msgs/Point", ArraySpec.scalar⟩, "q"⟩],
         specNav.constants, specNav.hasHeader⟩ ("nav")
      = is_fixed_length envPoint 2 specNav ("nav") :=
  (is_fixed_length_dedup envPoint 2 specNav ("nav")
    ⟨⟨"robot_msgs/Point", ArraySpec.scalar⟩, "q"⟩
    ⟨⟨"robot_msgs/Point", ArraySpec.scalar⟩, "p"⟩
    (by decide) rfl (by decide) (by decide)).2

/-- Prefix test on character lists. -/
def hasPrefixCL : List Char → List Char → Bool
  | [], _ => true
  | _ :: _, [] => false
  | p :: ps, c :: cs => decide (p = c) && hasPrefixCL ps cs

/-- Chunk classifier: does the chunk `s` begin with the pattern `pat`? -/
def chunkHas (pat s : String) : Bool :=
  hasPrefixCL pat.data s.data

lemma hasPrefixCL_append_general : ∀ (p s t : List Char),
    hasPrefixCL p (s ++ t)
      = (hasPrefixCL (p.take s.length) s && hasPrefixCL (p.drop s.length) t) := by
  intro p
  induction p with
  | nil => intro s t; simp [hasPrefixCL]
  | cons x ps ih =>
    intro s t
    cases s with
    | nil => simp [hasPrefixCL]
    | cons y ys =>
      simp [hasPrefixCL, ih, Bool.and_assoc]

lemma chunkHas_append_false (pat lit rest : String)
    (h : hasPrefixCL (pat.data.take lit.data.length) lit.data = false) :
    chunkHas pat (lit ++ rest) = false := by
  unfold chunkHas
  rw [String.data_append, hasPrefixCL_append_general, h, Bool.false_and]

lemma chunkHas_append_true (pat lit rest : String)
    (h1 : hasPrefixCL (pat.data.take lit.data.length) lit.data = true)
    (h2 : pat.data.length ≤ lit.data.length) :
    chunkHas pat (lit ++ rest) = true := by
  unfold chunkHas
  rw [String.data_append, hasPrefixCL_append_general, h1,
    List.drop_eq_nil_of_le h2]
  rfl

/-- The prefix of the statements emitted by the `write` routine loop. -/
def SER_PAT : String := "  buffer = serialize("

/-- The prefix of the statements emitted by the `read` routine loop. -/
def DESER_PAT : String := "  buffer = deserialize("

/-- The prefix of the statements emitted by the `serializedLength` loop. -/
def LEN_PAT : String := "  size += serializationLength("

lemma filter_map_of_true {α β : Type} (p : β → Bool) (f : α → β) :
    ∀ l : List α, (∀ a, p (f a) = true) → (l.map f).filter p = l.map f := by
  intro l h
  induction l with
  | nil => rfl
  | cons a rest ih => simp [h, ih]

lemma filter_map_of_false {α β : Type} (p : β → Bool) (f : α → β) :
    ∀ l : List α, (∀ a, p (f a) = false) → (l.map f).filter p = [] := by
  intro l h
  induction l with
  | nil => rfl
  | cons a rest ih => simp [h, ih]

lemma serPatChunks :
    chunkHas SER_PAT ("namespace ros\n\x7b\n") = false
    ∧ chunkHas SER_PAT ("namespace serialization\n\x7b\n\n") = false
    ∧ chunkHas SER_PAT ("  return buffer;\n\x7d\n\n") = false
    ∧ chunkHas SER_PAT ("  uint32_t size = 0;\n") = false
    ∧ chunkHas SER_PAT ("  return size;\n\x7d\n\n") = false
    ∧ chunkHas SER_PAT ("\x7d // namespace serialization\n") = false
    ∧ chunkHas SER_PAT ("\x7d // namespace ros\n\n") = false
    ∧ (∀ x : String, chunkHas SER_PAT (("inline Buffer Serializer<") ++ x) = false)
    ∧ (∀ x : String, chunkHas SER_PAT (("inline uint32_t Serializer<") ++ x) = false)
    ∧ (∀ f : MsgField, chunkHas SER_PAT (serLine f) = true)
    ∧ (∀ f : MsgField, chunkHas SER_PAT (deserLine f) = false)
    ∧ (∀ f : MsgField, chunkHas SER_PAT (lenLine f) = false) := by
  refine ⟨by decide, by decide, by decide, by decide, by decide, by decide, by decide,
    fun x => chunkHas_append_false _ _ _ (by decide),
    fun x => chunkHas_append_false _ _ _ (by decide),
    fun f => ?_, fun f => ?_, fun f => ?_⟩
  · unfold serLine
    rw [String.append_assoc]
    exact chunkHas_append_true _ _ _ (by decide) (by decide)
  · unfold deserLine
    rw [String.append_assoc]
    exact chunkHas_append_false _ _ _ (by decide)
  · unfold lenLine
    rw [String.append_assoc]
    exact chunkHas_append_false _ _ _ (by decide)

lemma deserPatChunks :
    chunkHas DESER_PAT ("namespace ros\n\x7b\n") = false
    ∧ chunkHas DESER_PAT ("namespace serialization\n\x7b\n\n") = false
    ∧ chunkHas DESER_PAT ("  return buffer;\n\x7d\n\n") = false
    ∧ chunkHas DESER_PAT ("  uint32_t size = 0;\n") = false
    ∧ chunkHas DESER_PAT ("  return size;\n\x7d\n\n") = false
    ∧ chunkHas DESER_PAT ("\x7d // namespace serialization\n") = false
    ∧ chunkHas DESER_PAT ("\x7d // namespace ros\n\n") = false
    ∧ (∀ x : String, chunkHas DESER_PAT (("inline Buffer Serializer<") ++ x) = false)
    ∧ (∀ x : String, chunkHas DESER_PAT (("inline uint32_t Serializer<") ++ x) = false)
    ∧ (∀ f : MsgField, chunkHas DESER_PAT (serLine f) = false)
    ∧ (∀ f : MsgField, chunkHas DESER_PAT (deserLine f) = true)
    ∧ (∀ f : MsgField, chunkHas DESER_PAT (lenLine f) = false) := by
  refine ⟨by decide, by decide, by decide, by decide, by decide, by decide, by decide,
    fun x => chunkHas_append_false _ _ _ (by decide),
    fun x => chunkHas_append_false _ _ _ (by decide),
    fun f => ?_, fun f => ?_, fun f => ?_⟩
  · unfold serLine
    rw [String.append_assoc]
    exact chunkHas_append_false _ _ _ (by decide)
  · unfold deserLine
    rw [String.append_assoc]
    exact chunkHas_append_true _ _ _ (by decide) (by decide)
  · unfold lenLine
    rw [String.append_assoc]
    exact chunkHas_append_false _ _ _ (by decide)

lemma lenPatChunks :
    chunkHas LEN_PAT ("namespace ros\n\x7b\n") = false
    ∧ chunkHas LEN_PAT ("namespace serialization\n\x7b\n\n") = false
    ∧ chunkHas LEN_PAT ("  return buffer;\n\x7d\n\n") = false
    ∧ chunkHas LEN_PAT ("  uint32_t size = 0;\n") = false
    ∧ chunkHas LEN_PAT ("  return size;\n\x7d\n\n") = false
    ∧ chunkHas LEN_PAT ("\x7d // namespace serialization\n") = false
    ∧ chunkHas LEN_PAT ("\x7d // namespace ros\n\n") = false
    ∧ (∀ x : String, chunkHas LEN_PAT (("inline Buffer Serializer<") ++ x) = false)
    ∧ (∀ x : String, chunkHas LEN_PAT (("inline uint32_t Serializer<") ++ x) = false)
    ∧ (∀ f : MsgField, chunkHas LEN_PAT (serLine f) = false)
    ∧ (∀ f : MsgField, chunkHas LEN_PAT (deserLine f) = false)
    ∧ (∀ f : MsgField, chunkHas LEN_PAT (lenLine f) = true) := by
  refine ⟨by decide, by decide, by decide, by decide, by decide, by decide, by decide,
    fun x => chunkHas_append_false _ _ _ (by decide),
    fun x => chunkHas_append_false _ _ _ (by decide),
    fun f => ?_, fun f => ?_, fun f => ?_⟩
  · unfold serLine
    rw [String.append_assoc]
    exact chunkHas_append_false _ _ _ (by decide)
  · unfold deserLine
    rw [String.append_assoc]
    exact chunkHas_append_false _ _ _ (by decide)
  · unfold lenLine
    rw [String.append_assoc]
    exact chunkHas_append_true _ _ _ (by decide) (by decide)

/-- Claim C4: in the emitted serialization bodies, the chunks beginning with
the serialize/deserialize/serializationLength statement prefixes are exactly
the per-field statements in the schema's declared field order — one per
field, none skipped, duplicated or reordered; each write/read statement
threads the buffer cursor (`buffer = serialize(buffer, m.<field>)`), the
write and read bodies return the final cursor, and the serializedLength
body initializes its running total to zero and returns the sum. -/
theorem write_serialization_bodies_per_field (spec : MsgSpec) (pkg msg : String) :
    ((write_serialization_bodies spec pkg msg).filter (fun c => chunkHas SER_PAT c)
        = spec.fields.map serLine)
    ∧ ((write_serialization_bodies spec pkg msg).filter (fun c => chunkHas DESER_PAT c)
        = spec.fields.map deserLine)
    ∧ ((write_serialization_bodies spec pkg msg).filter (fun c => chunkHas LEN_PAT c)
        = spec.fields.map lenLine)
    ∧ ("  return buffer;\n\x7d\n\n") ∈ write_serialization_bodies spec pkg msg
    ∧ ("  uint32_t size = 0;\n") ∈ write_serialization_bodies spec pkg msg
    ∧ ("  return size;\n\x7d\n\n") ∈ write_serialization_bodies spec pkg msg := by
  refine ⟨?_, ?_, ?_, ?_, ?_, ?_⟩
  · simp [write_serialization_bodies, List.filter_append, String.append_assoc,
      serPatChunks.1, serPatChunks.2.1, serPatChunks.2.2.1, serPatChunks.2.2.2.1,
      serPatChunks.2.2.2.2.1, serPatChunks.2.2.2.2.2.1, serPatChunks.2.2.2.2.2.2.1,
      serPatChunks.2.2.2.2.2.2.2.1, serPatChunks.2.2.2.2.2.2.2.2.1,
      filter_map_of_true _ _ _ serPatChunks.2.2.2.2.2.2.2.2.2.1,
      filter_map_of_false _ _ _ serPatChunks.2.2.2.2.2.2.2.2.2.2.1,
      filter_map_of_false _ _ _ serPatChunks.2.2.2.2.2.2.2.2.2.2.2]
  · simp [write_serialization_bodies, List.filter_append, String.append_assoc,
      deserPatChunks.1, deserPatChunks.2.1, deserPatChunks.2.2.1, deserPatChunks.2.2.2.1,
      deserPatChunks.2.2.2.2.1, deserPatChunks.2.2.2.2.2.1, deserPatChunks.2.2.2.2.2.2.1,
      deserPatChunks.2.2.2.2.2.2.2.1, deserPatChunks.2.2.2.2.2.2.2.2.1,
      filter_map_of_false _ _ _ deserPatChunks.2.2.2.2.2.2.2.2.2.1,
      filter_map_of_true _ _ _ deserPatChunks.2.2.2.2.2.2.2.2.2.2.1,
      filter_map_of_false _ _ _ deserPatChunks.2.2.2.2.2.2.2.2.2.2.2]
  · simp [write_serialization_bodies, List.filter_append, String.append_assoc,
      lenPatChunks.1, lenPatChunks.2.1, lenPatChunks.2.2.1, lenPatChunks.2.2.2.1,
      lenPatChunks.2.2.2.2.1, lenPatChunks.2.2.2.2.2.1, lenPatChunks.2.2.2.2.2.2.1,
      lenPatChunks.2.2.2.2.2.2.2.1, lenPatChunks.2.2.2.2.2.2.2.2.1,
      filter_map_of_false _ _ _ lenPatChunks.2.2.2.2.2.2.2.2.2.1,
      filter_map_of_false _ _ _ lenPatChunks.2.2.2.2.2.2.2.2.2.2.1,
      filter_map_of_true _ _ _ lenPatChunks.2.2.2.2.2.2.2.2.2.2.2]
  · simp [write_serialization_bodies]
  · simp [write_serialization_bodies]
  · simp [write_serialization_bodies]
